import Mathlib

/-!
Shallow embedding of `main.py` of the auto-weekly-review tool.

The program is a linear batch pipeline: list journal documents in a folder,
keep those whose filename starts with a `YYYY年M月D日` date inside a given
range, flatten each document body to plain text, send the concatenation to a
completion service, and write the result back as a new document.

External calls (listing, document retrieval, completion, creation/insertion)
are modelled by passing their responses in as `Except`-valued inputs; the
functions below mirror the Python control flow on those responses.
-/

namespace AutoWeeklyReview

/-- Calendar date (the Python code uses `datetime` values at midnight). -/
structure Date where
  year : Nat
  month : Nat
  day : Nat
deriving DecidableEq

/-- `datetime` comparison `a <= b` for midnight values: lexicographic on
(year, month, day). -/
def dateLe (a b : Date) : Bool :=
  Nat.blt a.year b.year ||
    (a.year == b.year &&
      (Nat.blt a.month b.month || (a.month == b.month && Nat.ble a.day b.day)))

/-- Numeric value of a decimal digit character. -/
def charVal (c : Char) : Nat := c.toNat - 48

/-- Value of a string of decimal digits, as Python `int` reads the captured
regex groups. -/
def digitsToNat (cs : List Char) : Nat := cs.foldl (fun a c => 10 * a + charVal c) 0

/-- Proleptic-Gregorian leap year, as `datetime` uses. -/
def isLeapYear (y : Nat) : Bool :=
  (y % 4 == 0 && y % 100 != 0) || y % 400 == 0

/-- Days in a month, as `datetime` validates. -/
def daysInMonth (y m : Nat) : Nat :=
  if m = 2 then (if isLeapYear y then 29 else 28)
  else if m = 4 ∨ m = 6 ∨ m = 9 ∨ m = 11 then 30
  else 31

/-- Whether `datetime.strptime(f"{y}-{m}-{d}", "%Y-%m-%d")` succeeds on the
numbers captured from a filename (year `0000` is below `datetime.MINYEAR`;
months and days are validated against the calendar). -/
def validDate (y m d : Nat) : Bool :=
  Nat.ble 1 y && Nat.ble 1 m && Nat.ble m 12 && Nat.ble 1 d &&
    Nat.ble d (daysInMonth y m)

/-- Greedy match of the regex fragment `(\d{1,2})` followed by a literal
marker character, as in `(\d{1,2})月` / `(\d{1,2})日`: two digits are
consumed when the marker follows them, otherwise one digit followed by the
marker; anything else fails. Returns the captured value and the unconsumed
suffix. -/
def parseNumMarker (marker : Char) : List Char → Option (Nat × List Char)
  | c1 :: c2 :: c3 :: rest =>
    if c1.isDigit && c2.isDigit && c3 == marker then
      some (10 * charVal c1 + charVal c2, rest)
    else if c1.isDigit && c2 == marker then
      some (charVal c1, c3 :: rest)
    else none
  | [c1, c2] =>
    if c1.isDigit && c2 == marker then some (charVal c1, []) else none
  | _ => none

/-- `re.match(r"^(\d{4})年(\d{1,2})月(\d{1,2})日.*", name)` together with the
numeric reading of the three captured groups.  The trailing `.*` puts no
constraint on the rest of the name. -/
def parseDateChars : List Char → Option (Nat × Nat × Nat)
  | y1 :: y2 :: y3 :: y4 :: c :: rest =>
    if y1.isDigit && y2.isDigit && y3.isDigit && y4.isDigit && c == '年' then
      match parseNumMarker '月' rest with
      | some (m, rest2) =>
        match parseNumMarker '日' rest2 with
        | some (d, _) =>
          some (charVal y1 * 1000 + charVal y2 * 100 + charVal y3 * 10 + charVal y4, m, d)
        | none => none
      | none => none
    else none
  | _ => none

def parseDateName (name : String) : Option (Nat × Nat × Nat) :=
  parseDateChars name.data

/-- `{id, name}` pair from the Drive listing (`fields="files(id, name)"`). -/
structure DocumentRef where
  id : String
  name : String
deriving DecidableEq

/-- The per-item test of the `fetch_documents` loop: the filename matches the
date regex, the captured numbers survive `strptime`, and the date lies in
`[start_date, end_date]`. -/
def docMatches (start_date end_date : Date) (item : DocumentRef) : Bool :=
  match parseDateName item.name with
  | some (y, m, d) =>
    if validDate y m d then
      dateLe start_date ⟨y, m, d⟩ && dateLe ⟨y, m, d⟩ end_date
    else false
  | none => false

/-- `fetch_documents(drive_service, folder_id, start_date, end_date)`.
The listing API response is passed in: `Except.error` models `HttpError`
raised by `execute()`, `Except.ok none` a response without a `"files"` key
(the code defaults to `[]`), `Except.ok (some items)` a normal listing.
The loop appends each matching item to `matched_docs` in listing order. -/
def fetch_documents (listing : Except Unit (Option (List DocumentRef)))
    (start_date end_date : Date) : List DocumentRef :=
  match listing with
  | Except.error _ => []
  | Except.ok files =>
    let items := files.getD []
    items.foldl
      (fun matched_docs item =>
        if docMatches start_date end_date item then matched_docs ++ [item]
        else matched_docs)
      []

/-- A `textRun` object; the `"content"` key may be absent. -/
structure TextRun where
  content : Option String
deriving DecidableEq

/-- An inline element of a paragraph; the `"textRun"` key may be absent (or,
equivalently for the code's truthiness test, empty). -/
structure ParagraphElement where
  textRun : Option TextRun
deriving DecidableEq

/-- A paragraph object; the `"elements"` key may be absent. -/
structure Paragraph where
  elements : Option (List ParagraphElement)
deriving DecidableEq

/-- A structural element of the body; `"paragraph"` is absent for
non-paragraph blocks (tables, section breaks, ...). -/
structure StructuralElement where
  paragraph : Option Paragraph
deriving DecidableEq

/-- A document body; the `"content"` key may be absent. -/
structure Body where
  content : Option (List StructuralElement)
deriving DecidableEq

/-- A Docs API document; the `"body"` key may be absent (the code defaults to
`{}`, which in turn has no `"content"`). -/
structure Document where
  body : Option Body
deriving DecidableEq

/-- `extract_content(docs_service, document_id)`.  The retrieval response is
passed in: `Except.error` models `HttpError` from `execute()` (the code
returns `""`).  On success the code walks `body.content`, and for each
paragraph block appends every present `textRun.content` string to the
accumulator `content_text`. -/
def extract_content (resp : Except Unit Document) : String :=
  match resp with
  | Except.error _ => ""
  | Except.ok doc =>
    let body_content : List StructuralElement :=
      match doc.body with
      | some body => body.content.getD []
      | none => []
    body_content.foldl
      (fun content_text element =>
        match element.paragraph with
        | some paragraph =>
          match paragraph.elements with
          | some els =>
            els.foldl
              (fun ct el =>
                match el.textRun with
                | some tr =>
                  match tr.content with
                  | some s => ct ++ s
                  | none => ct
                | none => ct)
              content_text
          | none => content_text
        | none => content_text)
      ""

/-- Concatenation of a list of strings with no separator (specification-side
notion used to state what the extraction accumulator computes). -/
def concatStrings : List String → String
  | [] => ""
  | s :: rest => s ++ concatStrings rest

/-- The block list the extractor walks: `doc.get("body", {}).get("content", [])`. -/
def bodyContent (doc : Document) : List StructuralElement :=
  match doc.body with
  | some body => body.content.getD []
  | none => []

/-- The text-run content strings one block contributes: nothing unless the
block is a paragraph with an `elements` list, else each present
`textRun.content`, in order. -/
def blockRuns (element : StructuralElement) : List String :=
  match element.paragraph with
  | some paragraph =>
    match paragraph.elements with
    | some els => els.filterMap fun el => el.textRun.bind TextRun.content
    | none => []
  | none => []

/-- Specification-side flattening: the ordered list of every text-run content
string across every paragraph block of the document, in document order. -/
def textRunStrings (doc : Document) : List String :=
  (bodyContent doc).flatMap blockRuns

/-- Python `str.strip()` on a character list: drop whitespace from both ends. -/
def stripChars (cs : List Char) : List Char :=
  ((cs.dropWhile Char.isWhitespace).reverse.dropWhile Char.isWhitespace).reverse

/-- Python `str.strip()`. -/
def pyStrip (s : String) : String := String.mk (stripChars s.data)

/-- `generate_report(all_text, model)`.  `api_key` is `os.getenv("OPENAI_API_KEY")`
(`none` when unset; the code also treats the empty string as missing via
`if not openai.api_key`).  `completion` is the outcome of the
`openai.ChatCompletion.create` call: `Except.ok content` carries
`response["choices"][0]["message"]["content"]`, `Except.error` models any
exception raised by the call or by extracting that field.  The returned pair
is (result string, whether the completion service was called). -/
def generate_report (api_key : Option String) (completion : Except Unit String) :
    String × Bool :=
  match api_key with
  | none => ("Error: OPENAI_API_KEY not configured.", false)
  | some k =>
    if k = "" then ("Error: OPENAI_API_KEY not configured.", false)
    else
      match completion with
      | Except.ok content => (pyStrip content, true)
      | Except.error _ => ("Error: could not generate a report.", true)

/-- One call issued by `create_report_document` against the store APIs.
`deleteDoc` is the store's deletion operation; it is listed so that "no
rollback" is expressible, the code never issues it. -/
inductive WriterCall where
  | createDoc (name : String) (folderId : String)
  | insertText (docId : String) (index : Nat) (text : String)
  | deleteDoc (docId : String)
deriving DecidableEq

def isCreateCall : WriterCall → Bool
  | WriterCall.createDoc _ _ => true
  | _ => false

def isInsertCall : WriterCall → Bool
  | WriterCall.insertText _ _ _ => true
  | _ => false

def isDeleteCall : WriterCall → Bool
  | WriterCall.deleteDoc _ => true
  | _ => false

/-- `create_report_document(drive_service, docs_service, report_folder_id,
report_name, report_content)`, modelled as the trace of store calls it
issues.  `createResult` is the outcome of `files().create(...).execute()`
(`Except.ok` carries the new document's id); `insertResult` the outcome of
`documents().batchUpdate(...)` for a given id.  When creation raises
`HttpError` the `except` block only logs, so no insertion is issued; when
insertion raises, the trace is unchanged (only a log line differs). -/
def create_report_document (createResult : Except Unit String)
    (insertResult : String → Except Unit Unit)
    (report_folder_id report_name report_content : String) : List WriterCall :=
  match createResult with
  | Except.error _ => [WriterCall.createDoc report_name report_folder_id]
  | Except.ok doc_id =>
    match insertResult doc_id with
    | Except.error _ =>
      [WriterCall.createDoc report_name report_folder_id,
       WriterCall.insertText doc_id 1 report_content]
    | Except.ok _ =>
      [WriterCall.createDoc report_name report_folder_id,
       WriterCall.insertText doc_id 1 report_content]

/-- Zero-padding to two digits, as `strftime("%m")` / `strftime("%d")`. -/
def pad2 (n : Nat) : String :=
  if n < 10 then "0" ++ toString n else toString n

/-- Zero-padding to four digits, as `strftime("%Y")` formats a year. -/
def pad4 (n : Nat) : String :=
  if n < 10 then "000" ++ toString n
  else if n < 100 then "00" ++ toString n
  else if n < 1000 then "0" ++ toString n
  else toString n

/-- `date.strftime("%Y-%m-%d")`. -/
def formatYmd (d : Date) : String :=
  pad4 d.year ++ "-" ++ pad2 d.month ++ "-" ++ pad2 d.day

/-- The external-world responses a run of the pipeline observes: the listing
response, each document's retrieval response (by document id), the API key
from the environment, and the completion-service outcome. -/
structure RunEnv where
  listing : Except Unit (Option (List DocumentRef))
  docResp : String → Except Unit Document
  apiKey : Option String
  completion : Except Unit String

/-- Observable effects of `run_process`: the document ids passed to
`extract_content` in order, the text passed to `generate_report`, and the
`(folder, name, content)` arguments of the `create_report_document` call
(`none` when the corresponding step never runs). -/
structure RunResult where
  extracted : List String
  generated : Option String
  written : Option (String × String × String)
deriving DecidableEq

/-- `run_process(start_date, end_date, folder_id, report_folder_id)`:
fetch the documents, return early when none; otherwise build
`combined_text` by appending each extraction result plus `"\n"`, generate
the report, compute the report name, and call the writer. -/
def run_process (env : RunEnv) (start_date end_date : Date)
    (report_folder_id : String) : RunResult :=
  let documents := fetch_documents env.listing start_date end_date
  if documents.isEmpty then
    { extracted := [], generated := none, written := none }
  else
    let combined_text := documents.foldl
      (fun acc doc => acc ++ extract_content (env.docResp doc.id) ++ "\n") ""
    let report_content := (generate_report env.apiKey env.completion).1
    let report_name :=
      "レポート_" ++ formatYmd start_date ++ "_" ++ formatYmd end_date
    { extracted := documents.map DocumentRef.id,
      generated := some combined_text,
      written := some (report_folder_id, report_name, report_content) }

/-- Declarative reading of the filename contract, written from the
specification: the name decomposes as four digits, the year marker, one or
two digits, the month marker, one or two digits, the day marker, then
arbitrary trailing text; `y`, `m`, `d` are the numeric values of the three
digit groups. -/
def NamePatternDate (name : String) (y m d : Nat) : Prop :=
  ∃ ys ms ds rest : List Char,
    name.data = ys ++ '年' :: (ms ++ '月' :: (ds ++ '日' :: rest)) ∧
    ys.length = 4 ∧ (∀ c ∈ ys, c.isDigit = true) ∧
    ms ≠ [] ∧ ms.length ≤ 2 ∧ (∀ c ∈ ms, c.isDigit = true) ∧
    ds ≠ [] ∧ ds.length ≤ 2 ∧ (∀ c ∈ ds, c.isDigit = true) ∧
    y = digitsToNat ys ∧ m = digitsToNat ms ∧ d = digitsToNat ds

/-- The listing used by the unit test `test_fetch_documents`. -/
def demoItems : List DocumentRef :=
  [⟨"doc1", "2024年01月02日水曜日"⟩,
   ⟨"doc2", "2024年01月03日木曜日"⟩,
   ⟨"doc3", "invalid_name"⟩]

/-- The document body used by the unit test `test_extract_content`. -/
def demoDoc : Document :=
  ⟨some ⟨some
    [⟨some ⟨some [⟨some ⟨some "Hello "⟩⟩, ⟨some ⟨some "World"⟩⟩]⟩⟩,
     ⟨some ⟨some [⟨some ⟨some "\nAnother line"⟩⟩]⟩⟩]⟩⟩

/-- A run in which everything succeeds. -/
def demoEnv : RunEnv :=
  { listing := Except.ok (some demoItems),
    docResp := fun _ => Except.ok demoDoc,
    apiKey := some "sk-test",
    completion := Except.ok "Generated report" }

/-- A run in which the API key is missing from the environment. -/
def demoEnvNoKey : RunEnv :=
  { listing := Except.ok (some demoItems),
    docResp := fun _ => Except.ok demoDoc,
    apiKey := none,
    completion := Except.ok "Generated report" }

/-- A run in which the listing call raises `HttpError`. -/
def demoEnvEmpty : RunEnv :=
  { listing := Except.error (),
    docResp := fun _ => Except.error (),
    apiKey := none,
    completion := Except.error () }

section Lemmas

/-- Appending matched items one at a time is `List.filter`. -/
theorem foldl_append_filter {α : Type} (p : α → Bool) (l acc : List α) :
    l.foldl (fun m i => if p i then m ++ [i] else m) acc = acc ++ l.filter p := by
  induction l generalizing acc with
  | nil => simp
  | cons x xs ih =>
    by_cases hx : p x <;> simp [List.foldl_cons, List.filter_cons, hx, ih]

theorem concatStrings_append (l1 l2 : List String) :
    concatStrings (l1 ++ l2) = concatStrings l1 ++ concatStrings l2 := by
  induction l1 with
  | nil =>
    simp only [List.nil_append, concatStrings]
    cases concatStrings l2
    rfl
  | cons s rest ih => simp [concatStrings, ih, String.append_assoc]

theorem string_append_empty_left (s : String) : "" ++ s = s := by
  cases s
  rfl

/-- The inner loop of `extract_content` appends exactly the present
`textRun.content` strings of the paragraph, in order. -/
theorem inner_fold_eq (els : List ParagraphElement) (ct : String) :
    els.foldl
      (fun ct el =>
        match el.textRun with
        | some tr =>
          match tr.content with
          | some s => ct ++ s
          | none => ct
        | none => ct)
      ct =
    ct ++ concatStrings (els.filterMap fun el => el.textRun.bind TextRun.content) := by
  induction els generalizing ct with
  | nil => simp [concatStrings]
  | cons el rest ih =>
    obtain ⟨tr⟩ := el
    cases tr with
    | none => simpa [List.filterMap_cons] using ih ct
    | some tr0 =>
      obtain ⟨c⟩ := tr0
      cases c with
      | none => simpa [List.filterMap_cons] using ih ct
      | some s =>
        simp only [List.foldl_cons, List.filterMap_cons, Option.bind_some]
        rw [ih (ct ++ s)]
        simp [concatStrings, String.append_assoc]

/-- The outer loop of `extract_content` concatenates the contributions of the
blocks, in order. -/
theorem outer_fold_eq (blocks : List StructuralElement) (ct : String) :
    blocks.foldl
      (fun content_text element =>
        match element.paragraph with
        | some paragraph =>
          match paragraph.elements with
          | some els =>
            els.foldl
              (fun ct el =>
                match el.textRun with
                | some tr =>
                  match tr.content with
                  | some s => ct ++ s
                  | none => ct
                | none => ct)
              content_text
          | none => content_text
        | none => content_text)
      ct =
    ct ++ concatStrings (blocks.flatMap blockRuns) := by
  induction blocks generalizing ct with
  | nil => simp [concatStrings]
  | cons block rest ih =>
    obtain ⟨par⟩ := block
    cases par with
    | none =>
      simp only [List.foldl_cons, List.flatMap_cons, blockRuns]
      rw [ih ct, List.nil_append]
    | some p =>
      obtain ⟨els?⟩ := p
      cases els? with
      | none =>
        simp only [List.foldl_cons, List.flatMap_cons, blockRuns]
        rw [ih ct, List.nil_append]
      | some els =>
        simp only [List.foldl_cons, List.flatMap_cons, blockRuns]
        rw [inner_fold_eq els ct, ih, concatStrings_append, String.append_assoc]

/-- `extract_content` on a successfully retrieved document is the ordered
concatenation of all its text-run content strings. -/
theorem extract_content_ok_eq (doc : Document) :
    extract_content (Except.ok doc) = concatStrings (textRunStrings doc) := by
  show (bodyContent doc).foldl _ "" = _
  rw [textRunStrings, outer_fold_eq, string_append_empty_left]

theorem digitsToNat_one (a : Char) : digitsToNat [a] = charVal a := by
  simp [digitsToNat]

theorem digitsToNat_two (a b : Char) :
    digitsToNat [a, b] = 10 * charVal a + charVal b := by
  simp [digitsToNat]

theorem digitsToNat_four (a b c d : Char) :
    digitsToNat [a, b, c, d] =
      charVal a * 1000 + charVal b * 100 + charVal c * 10 + charVal d := by
  simp [digitsToNat]
  ring

/-- `parseNumMarker` succeeds exactly on one digit followed by the marker, or
two digits followed by the marker (the greedy `(\d{1,2})` with backtracking),
returning the digits' value and the suffix after the marker. -/
theorem parseNumMarker_eq_some {marker : Char} (hm : marker.isDigit = false)
    (cs rest : List Char) (n : Nat) :
    parseNumMarker marker cs = some (n, rest) ↔
      ((∃ a, a.isDigit = true ∧ cs = a :: marker :: rest ∧ n = charVal a) ∨
       (∃ a b, a.isDigit = true ∧ b.isDigit = true ∧
          cs = a :: b :: marker :: rest ∧ n = 10 * charVal a + charVal b)) := by
  constructor
  · intro h
    rcases cs with _ | ⟨c1, _ | ⟨c2, _ | ⟨c3, r⟩⟩⟩
    · simp [parseNumMarker] at h
    · simp [parseNumMarker] at h
    · simp only [parseNumMarker] at h
      split_ifs at h with hc
      simp only [Bool.and_eq_true, beq_iff_eq] at hc
      simp only [Option.some.injEq, Prod.mk.injEq] at h
      exact Or.inl ⟨c1, hc.1, by rw [← h.2, hc.2], h.1.symm⟩
    · simp only [parseNumMarker] at h
      split_ifs at h with h1 h2
      · simp only [Bool.and_eq_true, beq_iff_eq] at h1
        simp only [Option.some.injEq, Prod.mk.injEq] at h
        exact Or.inr ⟨c1, c2, h1.1.1, h1.1.2, by rw [← h.2, h1.2], h.1.symm⟩
      · simp only [Bool.and_eq_true, beq_iff_eq] at h2
        simp only [Option.some.injEq, Prod.mk.injEq] at h
        exact Or.inl ⟨c1, h2.1, by rw [← h.2, h2.2], h.1.symm⟩
  · intro h
    rcases h with ⟨a, ha, hcs, hn⟩ | ⟨a, b, ha, hb, hcs, hn⟩
    · subst hcs hn
      cases rest with
      | nil => simp [parseNumMarker, ha]
      | cons r1 rs => simp [parseNumMarker, ha, hm]
    · subst hcs hn
      simp [parseNumMarker, ha, hb]

/-- Same fact with the digit group packaged as a list segment. -/
theorem parseNumMarker_eq_some_seg {marker : Char} (hm : marker.isDigit = false)
    (cs rest : List Char) (n : Nat) :
    parseNumMarker marker cs = some (n, rest) ↔
      ∃ ms : List Char, ms ≠ [] ∧ ms.length ≤ 2 ∧ (∀ c ∈ ms, c.isDigit = true) ∧
        cs = ms ++ marker :: rest ∧ n = digitsToNat ms := by
  rw [parseNumMarker_eq_some hm]
  constructor
  · intro h
    rcases h with ⟨a, ha, hcs, hn⟩ | ⟨a, b, ha, hb, hcs, hn⟩
    · exact ⟨[a], by simp, by simp, by simp [ha], by simp [hcs], by
        rw [hn, digitsToNat_one]⟩
    · exact ⟨[a, b], by simp, by simp, by simp [ha, hb], by simp [hcs], by
        rw [hn, digitsToNat_two]⟩
  · intro h
    obtain ⟨ms, hne, hlen, hdig, hcs, hn⟩ := h
    rcases ms with _ | ⟨a, _ | ⟨b, t⟩⟩
    · exact absurd rfl hne
    · exact Or.inl ⟨a, hdig a (by simp), by simpa using hcs, by
        rw [hn, digitsToNat_one]⟩
    · have ht : t = [] := by
        rcases t with _ | ⟨x, xs⟩
        · rfl
        · simp at hlen
      subst ht
      exact Or.inr ⟨a, b, hdig a (by simp), hdig b (by simp), by simpa using hcs, by
        rw [hn, digitsToNat_two]⟩

/-- The date regex of `fetch_documents` succeeds exactly as the declarative
filename pattern describes, returning the numeric year, month and day. -/
theorem parseDateChars_eq_some (cs : List Char) (y m d : Nat) :
    parseDateChars cs = some (y, m, d) ↔
      ∃ ys ms ds rest : List Char,
        cs = ys ++ '年' :: (ms ++ '月' :: (ds ++ '日' :: rest)) ∧
        ys.length = 4 ∧ (∀ c ∈ ys, c.isDigit = true) ∧
        ms ≠ [] ∧ ms.length ≤ 2 ∧ (∀ c ∈ ms, c.isDigit = true) ∧
        ds ≠ [] ∧ ds.length ≤ 2 ∧ (∀ c ∈ ds, c.isDigit = true) ∧
        y = digitsToNat ys ∧ m = digitsToNat ms ∧ d = digitsToNat ds := by
  constructor
  · intro h
    rcases cs with _ | ⟨y1, _ | ⟨y2, _ | ⟨y3, _ | ⟨y4, _ | ⟨c, rest⟩⟩⟩⟩⟩
    · simp [parseDateChars] at h
    · simp [parseDateChars] at h
    · simp [parseDateChars] at h
    · simp [parseDateChars] at h
    · simp [parseDateChars] at h
    · simp only [parseDateChars] at h
      split_ifs at h with hcond
      simp only [Bool.and_eq_true, beq_iff_eq] at hcond
      obtain ⟨⟨⟨⟨hy1, hy2⟩, hy3⟩, hy4⟩, hc⟩ := hcond
      subst hc
      cases hpm : parseNumMarker '月' rest with
      | none =>
        simp only [hpm] at h
        exact Option.noConfusion h
      | some p =>
        obtain ⟨m', rest2⟩ := p
        simp only [hpm] at h
        cases hpd : parseNumMarker '日' rest2 with
        | none =>
          simp only [hpd] at h
          exact Option.noConfusion h
        | some q =>
          obtain ⟨d', rest3⟩ := q
          simp only [hpd, Option.some.injEq, Prod.mk.injEq] at h
          obtain ⟨hy, hm', hd'⟩ := h
          obtain ⟨ms, hms0, hms2, hmsd, hrest, hmval⟩ :=
            (parseNumMarker_eq_some_seg (by decide) rest rest2 m').mp hpm
          obtain ⟨ds, hds0, hds2, hdsd, hrest2, hdval⟩ :=
            (parseNumMarker_eq_some_seg (by decide) rest2 rest3 d').mp hpd
          refine ⟨[y1, y2, y3, y4], ms, ds, rest3, ?_, rfl, ?_, hms0, hms2, hmsd,
            hds0, hds2, hdsd, ?_, ?_, ?_⟩
          · rw [hrest, hrest2]
            rfl
          · intro x hx
            simp only [List.mem_cons, List.mem_singleton] at hx
            rcases hx with rfl | rfl | rfl | rfl | hx
            · exact hy1
            · exact hy2
            · exact hy3
            · exact hy4
            · simp at hx
          · rw [← hy, digitsToNat_four]
          · rw [← hm', hmval]
          · rw [← hd', hdval]
  · intro h
    obtain ⟨ys, ms, ds, rest, hcs, hlen, hysd, hms0, hms2, hmsd,
      hds0, hds2, hdsd, hy, hm, hd⟩ := h
    rcases ys with _ | ⟨y1, _ | ⟨y2, _ | ⟨y3, _ | ⟨y4, _ | ⟨y5, t⟩⟩⟩⟩⟩
    · simp at hlen
    · simp at hlen
    · simp at hlen
    · simp at hlen
    · subst hcs
      have hpm : parseNumMarker '月' (ms ++ '月' :: (ds ++ '日' :: rest)) =
          some (digitsToNat ms, ds ++ '日' :: rest) :=
        (parseNumMarker_eq_some_seg (by decide) _ _ _).mpr
          ⟨ms, hms0, hms2, hmsd, rfl, rfl⟩
      have hpd : parseNumMarker '日' (ds ++ '日' :: rest) =
          some (digitsToNat ds, rest) :=
        (parseNumMarker_eq_some_seg (by decide) _ _ _).mpr
          ⟨ds, hds0, hds2, hdsd, rfl, rfl⟩
      have e1 := hysd y1 (by simp)
      have e2 := hysd y2 (by simp)
      have e3 := hysd y3 (by simp)
      have e4 := hysd y4 (by simp)
      show parseDateChars (y1 :: y2 :: y3 :: y4 :: '年' ::
        (ms ++ '月' :: (ds ++ '日' :: rest))) = some (y, m, d)
      rw [hy, hm, hd]
      simp [parseDateChars, e1, e2, e3, e4, hpm, hpd, digitsToNat_four]
    · simp at hlen

/-- `parseDateName`, the filename regex on a `String`. -/
theorem parseDateName_eq_some (name : String) (y m d : Nat) :
    parseDateName name = some (y, m, d) ↔ NamePatternDate name y m d := by
  rw [parseDateName, parseDateChars_eq_some]
  rfl

/-- The `combined_text` accumulation of `run_process` concatenates one
segment per document, each the extracted text followed by a newline. -/
theorem combined_fold_eq (g : DocumentRef → String) (l : List DocumentRef)
    (init : String) :
    l.foldl (fun acc doc => acc ++ g doc ++ "\n") init =
      init ++ concatStrings (l.map fun doc => g doc ++ "\n") := by
  induction l generalizing init with
  | nil => simp [concatStrings]
  | cons doc rest ih =>
    simp only [List.foldl_cons, List.map_cons, concatStrings]
    rw [ih]
    simp [String.append_assoc]

end Lemmas

example : parseDateName "2024年01月02日水曜日" = some (2024, 1, 2) := by decide

example : parseDateName "2024年1月2日" = some (2024, 1, 2) := by decide

example : parseDateName "invalid_name" = none := by decide

example : parseDateName "2024年13月02日x" = some (2024, 13, 2) := by decide

example : docMatches ⟨2024, 1, 1⟩ ⟨2024, 1, 3⟩ ⟨"doc1", "2024年01月02日水曜日"⟩ = true := by
  decide

example : docMatches ⟨2024, 1, 1⟩ ⟨2024, 1, 3⟩ ⟨"doc3", "invalid_name"⟩ = false := by
  decide

example : extract_content (Except.ok demoDoc) = "Hello World\nAnother line" := by decide

example : formatYmd ⟨2024, 1, 7⟩ = "2024-01-07" := by decide

example :
    fetch_documents (Except.ok (some demoItems)) ⟨2024, 1, 1⟩ ⟨2024, 1, 3⟩ =
      [⟨"doc1", "2024年01月02日水曜日"⟩, ⟨"doc2", "2024年01月03日木曜日"⟩] := by
  decide

/-- Claim C1: for every listing response, `fetch_documents` includes an item
iff its name matches the pattern (four-digit year, 年, one-or-two-digit
month, 月, one-or-two-digit day, 日, arbitrary trailing text), the captured
numbers form a valid calendar date, and that date lies within
`[start_date, end_date]` inclusive; included items keep the listing's order
with no de-duplication, and the result is empty when nothing matches. -/
theorem claim_fetch_documents_filter (items : List DocumentRef) (s e : Date) :
    fetch_documents (Except.ok (some items)) s e = items.filter (docMatches s e) ∧
    (∀ item : DocumentRef, docMatches s e item = true ↔
      ∃ y m d : Nat, NamePatternDate item.name y m d ∧ validDate y m d = true ∧
        dateLe s ⟨y, m, d⟩ = true ∧ dateLe ⟨y, m, d⟩ e = true) ∧
    ((∀ item ∈ items, docMatches s e item = false) →
      fetch_documents (Except.ok (some items)) s e = []) := by
  have hfil : fetch_documents (Except.ok (some items)) s e =
      items.filter (docMatches s e) := by
    show items.foldl _ [] = _
    rw [foldl_append_filter, List.nil_append]
  refine ⟨hfil, ?_, ?_⟩
  · intro item
    constructor
    · intro hmatch
      unfold docMatches at hmatch
      cases hp : parseDateName item.name with
      | none =>
        rw [hp] at hmatch
        exact Bool.noConfusion hmatch
      | some t =>
        obtain ⟨y0, m0, d0⟩ := t
        simp only [hp] at hmatch
        split_ifs at hmatch with hv
        simp only [Bool.and_eq_true] at hmatch
        exact ⟨y0, m0, d0, (parseDateName_eq_some _ _ _ _).mp hp, hv,
          hmatch.1, hmatch.2⟩
    · rintro ⟨y0, m0, d0, hnp, hv, h1, h2⟩
      have hp : parseDateName item.name = some (y0, m0, d0) :=
        (parseDateName_eq_some _ _ _ _).mpr hnp
      simp [docMatches, hp, hv, h1, h2]
  · intro hnone
    rw [hfil]
    exact List.filter_eq_nil_iff.mpr (by simpa using hnone)

/-- Claim C2 as stated is false: the completion-service-error sentinel is a
different string from the missing-key sentinel, so the caller can tell the
two failure modes apart from the return value. -/
theorem claim_generate_report_counterexample :
    (generate_report (some "sk-test") (Except.error ())).1 ≠
      (generate_report none (Except.error ())).1 := by
  decide

/-- Claim C2, amended: `generate_report` never raises; with the API key
absent (or empty) it returns the fixed string
`Error: OPENAI_API_KEY not configured.` without calling the completion
service, and on any completion-service error it returns the fixed string
`Error: could not generate a report.` — a different sentinel, so the two
failure modes are distinguishable from the return value. -/
theorem claim_generate_report_failures (svc : Except Unit String) (k : String)
    (hk : k ≠ "") :
    generate_report none svc = ("Error: OPENAI_API_KEY not configured.", false) ∧
    generate_report (some "") svc = ("Error: OPENAI_API_KEY not configured.", false) ∧
    generate_report (some k) (Except.error ()) =
      ("Error: could not generate a report.", true) ∧
    "Error: OPENAI_API_KEY not configured." ≠ "Error: could not generate a report." := by
  refine ⟨rfl, by simp [generate_report], by simp [generate_report, hk], by decide⟩

theorem claim_generate_report_failures_witness :
    generate_report none (Except.error ()) =
      ("Error: OPENAI_API_KEY not configured.", false) ∧
    generate_report (some "") (Except.error ()) =
      ("Error: OPENAI_API_KEY not configured.", false) ∧
    generate_report (some "sk-test") (Except.error ()) =
      ("Error: could not generate a report.", true) ∧
    "Error: OPENAI_API_KEY not configured." ≠ "Error: could not generate a report." :=
  claim_generate_report_failures (Except.error ()) "sk-test" (by decide)

/-- Claim C3: extraction of a retrieved document equals the ordered
concatenation of every text-run content string across every paragraph
block, in document order, with no separators, trimming or normalization;
non-paragraph blocks and inline elements without a text run contribute
nothing. -/
theorem claim_extract_content_order (doc : Document) :
    extract_content (Except.ok doc) = concatStrings (textRunStrings doc) :=
  extract_content_ok_eq doc

/-- Claim C4: with at least one located document, the text handed to the
report generator is the concatenation, in locator order, of each document's
extracted text with a newline appended after each; the extracted ids are
exactly the locator's output, unfiltered and in order. -/
theorem claim_run_process_combined (env : RunEnv) (s e : Date) (rfid : String)
    (h : fetch_documents env.listing s e ≠ []) :
    (run_process env s e rfid).generated =
      some (concatStrings ((fetch_documents env.listing s e).map
        (fun doc => extract_content (env.docResp doc.id) ++ "\n"))) ∧
    (run_process env s e rfid).extracted =
      (fetch_documents env.listing s e).map DocumentRef.id := by
  have hne : (fetch_documents env.listing s e).isEmpty = false := by
    cases hd : fetch_documents env.listing s e
    · exact absurd hd h
    · rfl
  constructor
  · simp only [run_process, hne, Bool.false_eq_true, if_false]
    rw [combined_fold_eq, string_append_empty_left]
  · simp only [run_process, hne, Bool.false_eq_true, if_false]

theorem claim_run_process_combined_witness :
    ((run_process demoEnv ⟨2024, 1, 1⟩ ⟨2024, 1, 3⟩ "out").generated =
      some (concatStrings ((fetch_documents demoEnv.listing ⟨2024, 1, 1⟩ ⟨2024, 1, 3⟩).map
        (fun doc => extract_content (demoEnv.docResp doc.id) ++ "\n"))) ∧
    (run_process demoEnv ⟨2024, 1, 1⟩ ⟨2024, 1, 3⟩ "out").extracted =
      (fetch_documents demoEnv.listing ⟨2024, 1, 1⟩ ⟨2024, 1, 3⟩).map DocumentRef.id) ∧
    (run_process demoEnv ⟨2024, 1, 1⟩ ⟨2024, 1, 3⟩ "out").generated =
      some "Hello World\nAnother line\nHello World\nAnother line\n" :=
  ⟨claim_run_process_combined demoEnv ⟨2024, 1, 1⟩ ⟨2024, 1, 3⟩ "out" (by decide),
   by decide⟩

/-- Claim C5: when the report generator fails (missing or empty API key, or a
completion-service error) but documents were located, the writer is still
called, with the generator's sentinel error string as the report body. -/
theorem claim_run_process_writes_on_failure (env : RunEnv) (s e : Date) (rfid : String)
    (hdocs : fetch_documents env.listing s e ≠ [])
    (hfail : env.apiKey = none ∨ env.apiKey = some "" ∨
      env.completion = Except.error ()) :
    (run_process env s e rfid).written =
      some (rfid, "レポート_" ++ formatYmd s ++ "_" ++ formatYmd e,
        (generate_report env.apiKey env.completion).1) ∧
    ((generate_report env.apiKey env.completion).1 =
        "Error: OPENAI_API_KEY not configured." ∨
     (generate_report env.apiKey env.completion).1 =
        "Error: could not generate a report.") := by
  have hne : (fetch_documents env.listing s e).isEmpty = false := by
    cases hd : fetch_documents env.listing s e
    · exact absurd hd hdocs
    · rfl
  constructor
  · simp only [run_process, hne, Bool.false_eq_true, if_false]
  · rcases hfail with hk | hk | hc
    · rw [hk]
      exact Or.inl rfl
    · rw [hk]
      exact Or.inl (by simp [generate_report])
    · cases hkey : env.apiKey with
      | none => exact Or.inl rfl
      | some k =>
        by_cases hk0 : k = ""
        · subst hk0
          exact Or.inl (by simp [generate_report])
        · exact Or.inr (by simp [generate_report, hk0, hc])

theorem claim_run_process_writes_on_failure_witness :
    (run_process demoEnvNoKey ⟨2024, 1, 1⟩ ⟨2024, 1, 3⟩ "out").written =
      some ("out", "レポート_" ++ formatYmd ⟨2024, 1, 1⟩ ++ "_" ++ formatYmd ⟨2024, 1, 3⟩,
        (generate_report demoEnvNoKey.apiKey demoEnvNoKey.completion).1) ∧
    ((generate_report demoEnvNoKey.apiKey demoEnvNoKey.completion).1 =
        "Error: OPENAI_API_KEY not configured." ∨
     (generate_report demoEnvNoKey.apiKey demoEnvNoKey.completion).1 =
        "Error: could not generate a report.") :=
  claim_run_process_writes_on_failure demoEnvNoKey ⟨2024, 1, 1⟩ ⟨2024, 1, 3⟩ "out"
    (by decide) (Or.inl rfl)

/-- Claim C6 as stated is false: when the document-creation call raises, the
writer issues no content-insertion call at all, so there is not always
exactly one insertion call after the creation call. -/
theorem claim_create_report_document_counterexample :
    ¬ (List.countP isInsertCall
        (create_report_document (Except.error ()) (fun _ => Except.ok ())
          "report_folder" "Test Report" "Report Content") = 1) := by
  decide

/-- Claim C6, amended: the writer always issues exactly one document-creation
call; when creation succeeds it issues exactly one content-insertion call
referencing the identifier the creation call returned, inserting the content
as plain text at index 1; when creation errors, no insertion call is issued;
creation or insertion errors are only logged — never raised, never retried,
and no rollback (deletion) call is ever issued. -/
theorem claim_create_report_document_calls (createResult : Except Unit String)
    (insertResult : String → Except Unit Unit) (fid nm ct : String) :
    List.countP isCreateCall
      (create_report_document createResult insertResult fid nm ct) = 1 ∧
    List.countP isInsertCall
      (create_report_document createResult insertResult fid nm ct) ≤ 1 ∧
    List.countP isDeleteCall
      (create_report_document createResult insertResult fid nm ct) = 0 ∧
    (∀ doc_id : String, createResult = Except.ok doc_id →
      create_report_document createResult insertResult fid nm ct =
        [WriterCall.createDoc nm fid, WriterCall.insertText doc_id 1 ct]) ∧
    (createResult = Except.error () →
      create_report_document createResult insertResult fid nm ct =
        [WriterCall.createDoc nm fid]) := by
  cases createResult with
  | error err =>
    refine ⟨rfl, by simp [create_report_document, isInsertCall, List.countP_cons],
      rfl, ?_, fun _ => rfl⟩
    intro doc_id hd
    exact Except.noConfusion hd
  | ok doc_id =>
    cases hins : insertResult doc_id with
    | error e2 =>
      refine ⟨?_, ?_, ?_, ?_, ?_⟩
      · simp [create_report_document, hins, isCreateCall, List.countP_cons]
      · simp [create_report_document, hins, isInsertCall, List.countP_cons]
      · simp [create_report_document, hins, isDeleteCall, List.countP_cons]
      · intro d hd
        obtain rfl : doc_id = d := by
          simpa using hd
        simp [create_report_document, hins]
      · intro hd
        exact Except.noConfusion hd
    | ok u =>
      refine ⟨?_, ?_, ?_, ?_, ?_⟩
      · simp [create_report_document, hins, isCreateCall, List.countP_cons]
      · simp [create_report_document, hins, isInsertCall, List.countP_cons]
      · simp [create_report_document, hins, isDeleteCall, List.countP_cons]
      · intro d hd
        obtain rfl : doc_id = d := by
          simpa using hd
        simp [create_report_document, hins]
      · intro hd
        exact Except.noConfusion hd

/-- Claim C7: with zero located documents the orchestrator extracts nothing,
generates nothing, writes nothing, and terminates normally. -/
theorem claim_run_process_no_documents (env : RunEnv) (s e : Date) (rfid : String)
    (h : fetch_documents env.listing s e = []) :
    run_process env s e rfid =
      { extracted := [], generated := none, written := none } := by
  have hne : (fetch_documents env.listing s e).isEmpty = true := by
    rw [h]
    rfl
  simp [run_process, hne]

theorem claim_run_process_no_documents_witness :
    run_process demoEnvEmpty ⟨2024, 1, 1⟩ ⟨2024, 1, 7⟩ "out" =
      { extracted := [], generated := none, written := none } :=
  claim_run_process_no_documents demoEnvEmpty ⟨2024, 1, 1⟩ ⟨2024, 1, 7⟩ "out" rfl

/-- Claim C8: a listing-call error makes `fetch_documents` return the empty
sequence instead of raising — indistinguishable from a range containing no
documents. -/
theorem claim_fetch_documents_listing_error (s e : Date) :
    fetch_documents (Except.error ()) s e = [] ∧
    fetch_documents (Except.error ()) s e =
      fetch_documents (Except.ok (some [])) s e :=
  ⟨rfl, rfl⟩

/-- Claim C9: whenever the orchestrator writes a report, its name is the
fixed prefix レポート_ followed by the start date in YYYY-MM-DD format, an
underscore, and the end date in YYYY-MM-DD format — a function of the date
range alone. -/
theorem claim_run_process_report_name (env : RunEnv) (s e : Date)
    (rfid dst nm ct : String)
    (h : (run_process env s e rfid).written = some (dst, nm, ct)) :
    nm = "レポート_" ++ formatYmd s ++ "_" ++ formatYmd e := by
  by_cases hne : (fetch_documents env.listing s e).isEmpty
  · simp [run_process, hne] at h
  · rw [Bool.not_eq_true] at hne
    simp only [run_process, hne, Bool.false_eq_true, if_false,
      Option.some.injEq, Prod.mk.injEq] at h
    exact h.2.1.symm

theorem claim_run_process_report_name_witness :
    "レポート_2024-01-01_2024-01-07" =
      "レポート_" ++ formatYmd ⟨2024, 1, 1⟩ ++ "_" ++ formatYmd ⟨2024, 1, 7⟩ :=
  claim_run_process_report_name demoEnv ⟨2024, 1, 1⟩ ⟨2024, 1, 7⟩ "out" "out"
    "レポート_2024-01-01_2024-01-07" "Generated report" (by decide)

/-- Claim C10: `extract_content` is total over arbitrarily shaped retrieval
responses — it always returns a string, and a missing body, a body without a
content list, a non-paragraph block, a paragraph without elements, an inline
element without a text run, or a text run without a content string each
contribute nothing. -/
theorem claim_extract_content_total :
    (∀ resp : Except Unit Document, ∃ out : String, extract_content resp = out) ∧
    extract_content (Except.ok (Document.mk none)) = "" ∧
    extract_content (Except.ok (Document.mk (some (Body.mk none)))) = "" ∧
    (∀ pre post : List StructuralElement,
      extract_content (Except.ok
          (Document.mk (some (Body.mk (some (pre ++ StructuralElement.mk none :: post)))))) =
        extract_content (Except.ok (Document.mk (some (Body.mk (some (pre ++ post))))))) ∧
    (∀ pre post : List StructuralElement,
      extract_content (Except.ok
          (Document.mk (some (Body.mk (some (pre ++
            StructuralElement.mk (some (Paragraph.mk none)) :: post)))))) =
        extract_content (Except.ok (Document.mk (some (Body.mk (some (pre ++ post))))))) ∧
    (∀ (pre post : List StructuralElement) (els1 els2 : List ParagraphElement),
      extract_content (Except.ok
          (Document.mk (some (Body.mk (some (pre ++
            StructuralElement.mk (some (Paragraph.mk (some
              (els1 ++ ParagraphElement.mk none :: els2)))) :: post)))))) =
        extract_content (Except.ok
          (Document.mk (some (Body.mk (some (pre ++
            StructuralElement.mk (some (Paragraph.mk (some (els1 ++ els2)))) :: post))))))) ∧
    (∀ (pre post : List StructuralElement) (els1 els2 : List ParagraphElement),
      extract_content (Except.ok
          (Document.mk (some (Body.mk (some (pre ++
            StructuralElement.mk (some (Paragraph.mk (some
              (els1 ++ ParagraphElement.mk (some (TextRun.mk none)) :: els2)))) :: post)))))) =
        extract_content (Except.ok
          (Document.mk (some (Body.mk (some (pre ++
            StructuralElement.mk (some (Paragraph.mk (some (els1 ++ els2)))) :: post))))))) := by
  refine ⟨fun resp => ⟨extract_content resp, rfl⟩, rfl, rfl, ?_, ?_, ?_, ?_⟩
  · intro pre post
    rw [extract_content_ok_eq, extract_content_ok_eq]
    simp [textRunStrings, bodyContent, blockRuns]
  · intro pre post
    rw [extract_content_ok_eq, extract_content_ok_eq]
    simp [textRunStrings, bodyContent, blockRuns]
  · intro pre post els1 els2
    rw [extract_content_ok_eq, extract_content_ok_eq]
    simp [textRunStrings, bodyContent, blockRuns, List.filterMap_append]
  · intro pre post els1 els2
    rw [extract_content_ok_eq, extract_content_ok_eq]
    simp [textRunStrings, bodyContent, blockRuns, List.filterMap_append]

end AutoWeeklyReview
